import Mathlib

/-!
# telegram-approver — verification of the approval lifecycle coordinator

Shallow embedding of the `codex-k8s/telegram-approver` repository
(multi-request model: `internal/approvals`, `internal/telegram`,
`internal/http`).  Go maps become association lists with unique keys,
`time.Time` becomes a `Nat` tick supplied by the caller, `time.Duration`
values are carried in whole seconds (`Int`, so non-positive configured
values are representable), and every external call of the Go code
(Telegram send/edit/delete, webhook POST, transcription) becomes either
an emitted `Effect` or an oracle read from an `Env` record.
-/

namespace TgApprover

/-! ### Go `strings`/`strconv` primitives

Defined over the character list of a `String` so that they reduce inside
the kernel.  `isSpaceGo` covers `unicode.IsSpace`'s Latin-1 range (the
exotic `Zs` code points never appear in this system's fixed strings). -/

/-- Go `unicode.IsSpace` on the Latin-1 range. -/
def isSpaceGo (c : Char) : Bool :=
  c = ' ' || c = '\t' || c = '\n' || c = '\x0b' || c = '\x0c' || c = '\r' ||
    c = '\u0085' || c = '\u00A0'

/-- Go `strings.TrimSpace`. -/
def trimGo (s : String) : String :=
  ⟨((s.data.dropWhile isSpaceGo).reverse.dropWhile isSpaceGo).reverse⟩

/-- Go `strings.ToLower` (ASCII range — the strings it is applied to here
are markup/lang tags). -/
def toLowerGo (s : String) : String :=
  ⟨s.data.map Char.toLower⟩

/-- Digit-run parser for `strconv.Atoi`: every character must be a
decimal digit. -/
def atoiDigits : List Char → Nat → Option Nat
  | [], acc => some acc
  | c :: rest, acc =>
    if c.isDigit then atoiDigits rest (acc * 10 + (c.toNat - 48)) else none

/-- Go `strconv.Atoi`: optional sign, then one or more digits. -/
def atoiGo (s : String) : Option Int :=
  match s.data with
  | [] => none
  | '-' :: rest =>
    match rest with
    | [] => none
    | _ => (atoiDigits rest 0).map (fun n => -(n : Int))
  | '+' :: rest =>
    match rest with
    | [] => none
    | _ => (atoiDigits rest 0).map (fun n => (n : Int))
  | cs => (atoiDigits cs 0).map (fun n => (n : Int))

/-- Go `approvals.Decision` — the four decision constants of `approvals.go`. -/
inductive Decision where
  | approve
  | deny
  | error
  | pending
deriving DecidableEq, Repr

/-- The string each `Decision` constant is defined as in `approvals.go`. -/
def Decision.str : Decision → String
  | .approve => "approve"
  | .deny => "deny"
  | .error => "error"
  | .pending => "pending"

/-- Go `approvals.Link` — a labelled code reference. -/
structure Link where
  text : String
  url : String
deriving DecidableEq, Repr

/-- Go `approvals.Callback` — webhook callback settings. -/
structure Callback where
  url : String
deriving DecidableEq, Repr

/-- Go `approvals.Request`.  Go's `Arguments map[string]any` is carried as an
association list of rendered argument entries; no operation of the
coordinator inspects it. -/
structure Request where
  correlationID : String
  tool : String
  arguments : List (String × String)
  justification : String
  approvalRequest : String
  linksToCode : List Link
  lang : String
  markup : String
  callback : Callback
deriving DecidableEq, Repr

/-- Go `approvals.Result`. -/
structure Result where
  decision : Decision
  reason : String
deriving DecidableEq, Repr

/-- Go `approvals.Approval` — mutable per-request state owned by the registry.
`CreatedAt` is the `Nat` tick that stood for `time.Now()` at admission;
`MessageID` is a Go `int`, hence `Int` here (the code compares it with 0). -/
structure Approval where
  request : Request
  createdAt : Nat
  messageID : Int
  messageText : String
  awaitingReason : Bool
deriving DecidableEq, Repr

/-- Lookup in an association-list map: the binding of the first matching
key (Go maps have unique keys; every reachable registry map does too). -/
def lookupA {α : Type} : List (String × α) → String → Option α
  | [], _ => none
  | (k, v) :: rest, id => if k = id then some v else lookupA rest id

/-- Go `delete(m, id)`: remove the binding of `id`. -/
def eraseA : List (String × Approval) → String → List (String × Approval)
  | [], _ => []
  | (k, v) :: rest, id =>
    if k = id then eraseA rest id else (k, v) :: eraseA rest id

/-- In-place mutation of the approval bound to `id` (the Go code mutates
through the stored pointer). -/
def updateA : List (String × Approval) → String → (Approval → Approval) →
    List (String × Approval)
  | [], _, _ => []
  | (k, v) :: rest, id, f =>
    if k = id then (k, f v) :: updateA rest id f else (k, v) :: updateA rest id f

/-- Go `approvals.Registry` — the map of in-flight approvals plus the
singleton deny-prompt pointer (`promptMessageID`, `promptCorrelation`).
The `sync.Mutex` is not modelled: each operation is one atomic step. -/
structure Registry where
  approvals : List (String × Approval)
  promptMessageID : Int
  promptCorrelation : String
deriving DecidableEq, Repr

/-- Go `approvals.NewRegistry`. -/
def newRegistry : Registry := ⟨[], 0, ""⟩

/-- Go `Registry.Add`.  Go returns `(nil, ErrAlreadyExists)` on a duplicate
correlation id; here `none` stands for that error.  `now` is the tick
`time.Now()` read. -/
def Registry.add (r : Registry) (req : Request) (now : Nat) :
    Option Approval × Registry :=
  match lookupA r.approvals req.correlationID with
  | some _ => (none, r)
  | none =>
    let approval : Approval :=
      { request := req, createdAt := now, messageID := 0
        messageText := "", awaitingReason := false }
    (some approval, { r with approvals := (req.correlationID, approval) :: r.approvals })

/-- Go `Registry.Get`. -/
def Registry.get (r : Registry) (correlationID : String) : Option Approval :=
  lookupA r.approvals correlationID

/-- Go `Registry.SetMessage` — attach chat message metadata; no-op when the
id is absent. -/
def Registry.setMessage (r : Registry) (correlationID : String)
    (messageID : Int) (messageText : String) : Registry :=
  match lookupA r.approvals correlationID with
  | none => r
  | some _ =>
    let approvals1 := updateA r.approvals correlationID
      (fun a => { a with messageID := messageID, messageText := messageText })
    { r with approvals := approvals1 }

/-- Go `Registry.StartReason` — returns `(previousPrompt, ok)` plus the new
state.  Mirrors the Go body: fail when the id is absent; if a different id
currently holds the prompt, clear that approval's flag (when still
present) and surface the old prompt message id; then flag the new holder
and reset the prompt message id to 0. -/
def Registry.startReason (r : Registry) (correlationID : String) :
    Int × Bool × Registry :=
  match lookupA r.approvals correlationID with
  | none => (0, false, r)
  | some _ =>
    let approvals1 :=
      if r.promptCorrelation ≠ "" ∧ r.promptCorrelation ≠ correlationID then
        updateA r.approvals r.promptCorrelation (fun a => { a with awaitingReason := false })
      else r.approvals
    let previousPrompt : Int :=
      if r.promptCorrelation ≠ "" ∧ r.promptCorrelation ≠ correlationID then
        r.promptMessageID
      else 0
    let approvals2 := updateA approvals1 correlationID (fun a => { a with awaitingReason := true })
    (previousPrompt, true,
      { approvals := approvals2, promptMessageID := 0, promptCorrelation := correlationID })

/-- Go `Registry.SetPromptMessage` — record the prompt message id, but only
while `correlationID` is still the current prompt holder. -/
def Registry.setPromptMessage (r : Registry) (correlationID : String)
    (messageID : Int) : Registry :=
  if r.promptCorrelation = correlationID then
    { r with promptMessageID := messageID }
  else r

/-- Go `Registry.ClearPrompt` — returns the removed prompt message id (0 when
`correlationID` is not the holder). -/
def Registry.clearPrompt (r : Registry) (correlationID : String) : Int × Registry :=
  if r.promptCorrelation ≠ correlationID then (0, r)
  else
    let approvals1 := updateA r.approvals correlationID (fun a => { a with awaitingReason := false })
    (r.promptMessageID, { approvals := approvals1, promptMessageID := 0, promptCorrelation := "" })

/-- Go `Registry.CurrentPrompt` — the holder and its prompt message id, only
while the holder is still present with its awaiting-reason flag set. -/
def Registry.currentPrompt (r : Registry) : Option (Approval × Int) :=
  if r.promptCorrelation = "" then none
  else
    match lookupA r.approvals r.promptCorrelation with
    | none => none
    | some approval =>
      if approval.awaitingReason then some (approval, r.promptMessageID) else none

/-- Go `Registry.Resolve` — the sole terminal operation: remove the approval
and, when it held the prompt, clear the prompt pointer, surfacing the
prompt message id.  `none` is Go's `ok=false`. -/
def Registry.resolve (r : Registry) (correlationID : String) :
    Option (Approval × Int) × Registry :=
  match lookupA r.approvals correlationID with
  | none => (none, r)
  | some approval =>
    let approvals1 := eraseA r.approvals correlationID
    if r.promptCorrelation = correlationID then
      (some (approval, r.promptMessageID),
        { approvals := approvals1, promptMessageID := 0, promptCorrelation := "" })
    else
      (some (approval, 0), { r with approvals := approvals1 })

/-! ## Update dispatcher, outcome notifier and service
(`internal/telegram/handlers/handlers.go`, `internal/telegram/service.go`)

External calls become `Effect`s in the order the Go code performs them;
the outcome a call would report back (message id of a send, success of an
edit or a POST, transcript of a voice note) is read from an `Env` oracle.
Inline-keyboard markup attached to sends/edits is not carried in the
effects — no claim inspects it. -/

/-- The observable external actions of the coordinator. -/
inductive Effect where
  | sendMessage (chatID : Int) (text : String) (parseMode : String)
  | editMessage (chatID : Int) (messageID : Int) (text : String) (parseMode : String)
  | deleteMessage (chatID : Int) (messageID : Int)
  | answerCallback (queryID : String) (text : Option String)
  | webhookPost (url : String) (payload : List (String × String)) (timeoutSeconds : Nat)
  | logError (message : String)
  | timerArmed (correlationID : String) (timeoutSeconds : Int) (timeoutMessage : String)
deriving DecidableEq, Repr

/-- Outcomes of the external calls, read where the Go code reads them. -/
structure Env where
  /-- Go `bot.SendMessage` outcome: the sent message's id, `none` on error. -/
  sendResult : Option Int
  /-- Go `bot.EditMessageText` outcome in `FinalizeApproval`. -/
  editOk : Bool
  /-- Go `http.NewRequestWithContext` success in `sendWebhook` (URL parse). -/
  requestBuildOk : Bool
  /-- Go `client.Do` outcome of the webhook POST. -/
  postOk : Bool
  /-- Result of the `GetFile`/download/normalize/`Transcribe` chain for a
  voice note, `none` when any of those steps fails. -/
  voiceResult : Option String
deriving DecidableEq, Repr

/-- The localized strings `handlers.go` reads from `i18n.Messages`. -/
structure Messages where
  invalidChat : String
  invalidAction : String
  alreadyResolved : String
  approvedNote : String
  deniedNote : String
  errorNote : String
  timeoutNote : String
  denyPrompt : String
  voiceDisabled : String
  transcriptionFailed : String
deriving DecidableEq, Repr

/-- Go's zero value `i18n.Messages{}`. -/
def Messages.empty : Messages := ⟨"", "", "", "", "", "", "", "", "", ""⟩

/-- Go `handlers.Handler` — the update dispatcher's configuration
(bot handle and logger are I/O and not part of the state). -/
structure Handler where
  chatID : Int
  messages : List (String × Messages)
  defaultLang : String
  sttLang : String
  /-- whether `NewHandler` received a non-nil `Transcriber`. -/
  hasTranscriber : Bool
deriving DecidableEq, Repr

/-- The callback-action constants of `handlers.go`. -/
def actionApprove : String := "approve"

/-- Go `ActionDeny`. -/
def actionDeny : String := "deny"

/-- Go `ActionDenyWithMessage`. -/
def actionDenyWithMessage : String := "deny_reason"

/-- Go `ActionCancelDeny`. -/
def actionCancelDeny : String := "deny_cancel"

/-- Go `ActionDelete`. -/
def actionDelete : String := "delete"

/-- Go `handlers.CallbackData` — build `action[:payload]`. -/
def callbackData (action payload : String) : String :=
  if payload = "" then action else action ++ ":" ++ payload

/-- Split at the first colon, keeping the remainder whole. -/
def splitAtColon : List Char → List Char × Option (List Char)
  | [] => ([], none)
  | c :: rest =>
    if c = ':' then ([], some rest)
    else
      let out := splitAtColon rest
      (c :: out.1, out.2)

/-- Go `handlers.parseCallback` — `strings.SplitN(data, ":", 2)`: the part
before the first colon and the remainder. -/
def parseCallback (data : String) : String × String :=
  match splitAtColon data.data with
  | (before, none) => (⟨before⟩, "")
  | (before, some after) => (⟨before⟩, ⟨after⟩)

/-- Go `handlers.parseMode` — the handlers' dialect switch
(`telego.ModeHTML` / `telego.ModeMarkdown`). -/
def parseModeHandlers (markup : String) : String :=
  if toLowerGo (trimGo markup) = "html" then "HTML" else "Markdown"

/-- Go `telegram.parseMode` — the service's dialect switch
(`telego.ModeHTML` / `telego.ModeMarkdownV2`). -/
def parseModeService (markup : String) : String :=
  if toLowerGo (trimGo markup) = "html" then "HTML" else "MarkdownV2"

/-- Go `Handler.messageFor` — language lookup with trim/lowercase, default
language, and `"en"` fallback, ending in the zero `Messages`. -/
def Handler.messageFor (h : Handler) (lang : String) : Messages :=
  let l := toLowerGo (trimGo lang)
  let l := if l = "" then h.defaultLang else l
  match lookupA h.messages l with
  | some m => m
  | none =>
    match lookupA h.messages "en" with
    | some m => m
    | none => Messages.empty

/-- Go `Handler.allowedChat`. -/
def Handler.allowedChat (h : Handler) (chatID : Int) : Bool :=
  chatID = h.chatID

/-- Go `Handler.answerCallback` — the `Text` field of the answer is only set
when the text does not trim to empty. -/
def answerCallbackEffect (queryID : String) (text : String) : Effect :=
  .answerCallback queryID (if trimGo text = "" then none else some text)

/-- Go `Handler.DeleteMessage` — no call at all for a non-positive id. -/
def Handler.deleteMessageEffects (h : Handler) (messageID : Int) : List Effect :=
  if messageID ≤ 0 then [] else [.deleteMessage h.chatID messageID]

/-- Go `Handler.noteForResult` — the localized result annotation. -/
def noteForResult (msg : Messages) (result : Result) (timeoutMessage : String) : String :=
  match result.decision with
  | .approve => msg.approvedNote
  | .deny =>
    if trimGo result.reason ≠ "" ∧ result.reason ≠ "denied" then
      msg.deniedNote ++ "\n" ++ result.reason
    else msg.deniedNote
  | .error =>
    if trimGo result.reason = "approval timeout" then
      if trimGo timeoutMessage ≠ "" then timeoutMessage else msg.timeoutNote
    else if trimGo result.reason ≠ "" then "⚠️ " ++ result.reason
    else msg.errorNote
  | .pending => ""

/-- Go `Handler.sendWebhook` — a single best-effort POST of the terminal
decision: skipped when the callback URL trims to empty or the request
cannot be built; a `client.Do` failure is only logged.  The `10`-second
client timeout is the `http.Client{Timeout: 10 * time.Second}` bound. -/
def Handler.sendWebhook (_h : Handler) (env : Env) (approval : Approval)
    (result : Result) : List Effect :=
  if trimGo approval.request.callback.url = "" then []
  else if ¬ env.requestBuildOk then []
  else
    let payload := [("correlation_id", approval.request.correlationID),
                    ("decision", result.decision.str),
                    ("reason", result.reason),
                    ("tool", approval.request.tool)]
    Effect.webhookPost approval.request.callback.url payload 10 ::
      (if env.postOk then [] else [.logError "Webhook delivery failed"])

/-- Go `Handler.FinalizeApproval` — append the result note to the stored
message text, edit the chat message (failure only logged), then send the
webhook regardless of the edit's outcome. -/
def Handler.finalizeApproval (h : Handler) (env : Env) (approval : Approval)
    (result : Result) (timeoutMessage : String) : List Effect :=
  let msg := h.messageFor approval.request.lang
  let note := noteForResult msg result timeoutMessage
  let text :=
    if trimGo note ≠ "" then approval.messageText ++ "\n\n" ++ note
    else approval.messageText
  Effect.editMessage h.chatID approval.messageID text
      (parseModeHandlers approval.request.markup) ::
    ((if env.editOk then [] else [.logError "Failed to update telegram message"]) ++
      h.sendWebhook env approval result)

/-- Go `telego.CallbackQuery` as the dispatcher reads it: query id, callback
data, and the chat id of the query's message (`none` when
`query.Message == nil`). -/
structure CallbackQuery where
  id : String
  data : String
  messageChat : Option Int
deriving DecidableEq, Repr

/-- Go `telego.Message` as the dispatcher reads it. -/
structure ChatMessage where
  chatID : Int
  text : String
  hasVoice : Bool
deriving DecidableEq, Repr

/-- Go `Handler.resolveDecision` — the approve/deny button paths. -/
def Handler.resolveDecision (h : Handler) (env : Env) (r : Registry)
    (q : CallbackQuery) (correlationID : String) (decision : Decision)
    (reason : String) : Registry × List Effect :=
  match r.resolve correlationID with
  | (none, r1) => (r1, [answerCallbackEffect q.id (h.messageFor "").alreadyResolved])
  | (some (approval, promptID), r1) =>
    let delEff := if promptID > 0 then h.deleteMessageEffects promptID else []
    let msg := h.messageFor approval.request.lang
    let note :=
      match decision with
      | .approve => msg.approvedNote
      | .deny => msg.deniedNote
      | _ => msg.errorNote
    (r1, delEff ++ h.finalizeApproval env approval ⟨decision, reason⟩ "" ++
      [answerCallbackEffect q.id note])

/-- Go `Handler.startDenyPrompt` — the deny-with-message button path. -/
def Handler.startDenyPrompt (h : Handler) (env : Env) (r : Registry)
    (q : CallbackQuery) (correlationID : String) : Registry × List Effect :=
  match r.get correlationID with
  | none => (r, [answerCallbackEffect q.id (h.messageFor "").alreadyResolved])
  | some approval =>
    match r.startReason correlationID with
    | (_, false, r1) =>
      (r1, [answerCallbackEffect q.id (h.messageFor approval.request.lang).alreadyResolved])
    | (prevPromptID, true, r1) =>
      let delEff := if prevPromptID > 0 then h.deleteMessageEffects prevPromptID else []
      let msg := h.messageFor approval.request.lang
      let sendEff :=
        [Effect.sendMessage h.chatID msg.denyPrompt (parseModeHandlers approval.request.markup)]
      match env.sendResult with
      | none =>
        (r1, delEff ++ sendEff ++
          [.logError "Failed to send deny prompt", answerCallbackEffect q.id msg.errorNote])
      | some promptMessageID =>
        (r1.setPromptMessage correlationID promptMessageID,
          delEff ++ sendEff ++ [answerCallbackEffect q.id ""])

/-- Go `Handler.cancelDenyPrompt`. -/
def Handler.cancelDenyPrompt (h : Handler) (r : Registry) (q : CallbackQuery)
    (correlationID : String) : Registry × List Effect :=
  let (promptID, r1) := r.clearPrompt correlationID
  let delEff := if promptID > 0 then h.deleteMessageEffects promptID else []
  (r1, delEff ++ [answerCallbackEffect q.id ""])

/-- Go `Handler.deleteMessage` (the `delete` action): parse the literal
message id from the payload (Go `strconv.Atoi`). -/
def Handler.deleteAction (h : Handler) (r : Registry) (q : CallbackQuery)
    (payload : String) : Registry × List Effect :=
  match atoiGo payload with
  | none => (r, [answerCallbackEffect q.id (h.messageFor "").invalidAction])
  | some messageID =>
    if messageID ≤ 0 then (r, [answerCallbackEffect q.id (h.messageFor "").invalidAction])
    else (r, h.deleteMessageEffects messageID ++ [answerCallbackEffect q.id ""])

/-- Go `Handler.handleCallback` — the button-press dispatcher: nothing for a
message-less query, the invalid-chat notice for a foreign chat, then the
action switch. -/
def Handler.handleCallback (h : Handler) (env : Env) (r : Registry)
    (q : CallbackQuery) : Registry × List Effect :=
  match q.messageChat with
  | none => (r, [])
  | some chat =>
    if ¬ h.allowedChat chat then
      (r, [answerCallbackEffect q.id (h.messageFor "").invalidChat])
    else
      let (action, payload) := parseCallback q.data
      if action = actionApprove then h.resolveDecision env r q payload .approve "approved"
      else if action = actionDeny then h.resolveDecision env r q payload .deny "denied"
      else if action = actionDenyWithMessage then h.startDenyPrompt env r q payload
      else if action = actionCancelDeny then h.cancelDenyPrompt r q payload
      else if action = actionDelete then h.deleteAction r q payload
      else (r, [answerCallbackEffect q.id (h.messageFor "").invalidAction])

/-- Go `Handler.handleMessage` — the free-text / voice reply dispatcher: a
foreign chat is ignored silently; without a current deny prompt the
message is ignored; a text reply resolves the prompt holder with the
trimmed text (`"denied"` when it trims to empty); a voice reply uses the
transcript (untrimmed, `"denied"` when it trims to empty), with fixed
notices when transcription is disabled or fails. -/
def Handler.handleMessage (h : Handler) (env : Env) (r : Registry)
    (m : ChatMessage) : Registry × List Effect :=
  if ¬ h.allowedChat m.chatID then (r, [])
  else
    match r.currentPrompt with
    | none => (r, [])
    | some (approval, _) =>
      if ¬ approval.awaitingReason then (r, [])
      else if m.text ≠ "" then
        let reason := if trimGo m.text = "" then "denied" else trimGo m.text
        match r.resolve approval.request.correlationID with
        | (none, r1) => (r1, [])
        | (some (resolved, promptID), r1) =>
          let delEff := if promptID > 0 then h.deleteMessageEffects promptID else []
          (r1, delEff ++ h.finalizeApproval env resolved ⟨.deny, reason⟩ "")
      else if m.hasVoice then
        if ¬ h.hasTranscriber then
          (r, [.sendMessage h.chatID (h.messageFor approval.request.lang).voiceDisabled "Markdown"])
        else
          match env.voiceResult with
          | none =>
            (r, [.sendMessage h.chatID
              (h.messageFor approval.request.lang).transcriptionFailed "Markdown"])
          | some transcript =>
            let reason := if trimGo transcript = "" then "denied" else transcript
            match r.resolve approval.request.correlationID with
            | (none, r1) => (r1, [])
            | (some (resolved, promptID), r1) =>
              let delEff := if promptID > 0 then h.deleteMessageEffects promptID else []
              (r1, delEff ++ h.finalizeApproval env resolved ⟨.deny, reason⟩ "")
      else (r, [])

/-- Go `telegram.Service` configuration: the reviewer chat and the renderer.
The renderer (`renderMessage` and its markup writers) is the pure
formatting component the spec leaves out of scope, so it is a parameter. -/
structure ServiceCfg where
  chatID : Int
  render : Request → String

/-- Go `Service.SubmitApproval` — admit, send the notification, attach the
message metadata and arm the one-shot timeout timer (`timerArmed`); the
`≤ 0 → time.Hour` floor is applied first.  On a send failure the entry is
left in the registry and decision `error` is returned. -/
def submitApproval (svc : ServiceCfg) (env : Env) (r : Registry) (req : Request)
    (timeoutSec : Int) (timeoutMessage : String) (now : Nat) :
    Result × Registry × List Effect :=
  let timeoutSec := if timeoutSec ≤ 0 then 3600 else timeoutSec
  match r.add req now with
  | (none, r1) => (⟨.error, "approval already exists"⟩, r1, [])
  | (some _, r1) =>
    let messageText := svc.render req
    let sendEff := [Effect.sendMessage svc.chatID messageText (parseModeService req.markup)]
    match env.sendResult with
    | none =>
      (⟨.error, "failed to send telegram message"⟩, r1,
        sendEff ++ [.logError "Failed to send telegram message"])
    | some messageID =>
      let r2 := r1.setMessage req.correlationID messageID messageText
      (⟨.pending, "queued"⟩, r2,
        sendEff ++ [.timerArmed req.correlationID timeoutSec timeoutMessage])

/-- Go `Service.scheduleTimeout`'s timer body once the timer fires: resolve;
a loser exits silently, the winner deletes a pending prompt and finalizes
with decision `error` / reason `"approval timeout"`. -/
def timerFire (h : Handler) (env : Env) (r : Registry) (correlationID : String)
    (timeoutMessage : String) : Registry × List Effect :=
  match r.resolve correlationID with
  | (none, r1) => (r1, [])
  | (some (approval, promptID), r1) =>
    let delEff := if promptID > 0 then h.deleteMessageEffects promptID else []
    (r1, delEff ++ h.finalizeApproval env approval ⟨.error, "approval timeout"⟩ timeoutMessage)

/-! ## Submission boundary (`internal/http`, the `/approve` handler) -/

/-- The slice of `config.Config` the `/approve` handler reads.
`ApprovalTimeout` is carried in whole seconds. -/
structure Config where
  lang : String
  approvalTimeoutSec : Int
  timeoutMessage : String
deriving DecidableEq, Repr

/-- Go `http.ApproveRequest` — the decoded JSON payload.  `arguments` is
`none` for a missing/null map, `callback` is `none` for a missing
callback object; `timeout_sec` is a Go `int`. -/
structure ApproveRequest where
  correlationID : String
  tool : String
  arguments : Option (List (String × String))
  justification : String
  approvalRequest : String
  linksToCode : List Link
  lang : String
  markup : String
  callback : Option Callback
  timeoutSec : Int
deriving DecidableEq, Repr

/-- Go `http.validateReasonLength` — rune count of the trimmed value must
lie in 10..500. -/
def validateReasonLength (field value : String) : Option String :=
  let length := (trimGo value).length
  if length < 10 ∨ length > 500 then some (field ++ " must be 10-500 characters")
  else none

/-- The validation and normalization block of `ApproveHandler.ServeHTTP`
(everything between the JSON decode and the `SubmitApproval` call),
returning the built `approvals.Request` and the effective timeout in
seconds, or the error string of the 400 response. -/
def validate (cfg : Config) (req : ApproveRequest) : Except String (Request × Int) :=
  if trimGo req.correlationID = "" then .error "correlation_id is required"
  else if trimGo req.tool = "" then .error "tool is required"
  else
    let arguments := req.arguments.getD []
    match (if req.justification ≠ "" then
        validateReasonLength "justification" req.justification else none) with
    | some e => .error e
    | none =>
    match (if req.approvalRequest ≠ "" then
        validateReasonLength "approval_request" req.approvalRequest else none) with
    | some e => .error e
    | none =>
      let links :=
        if req.linksToCode.length > 5 then req.linksToCode.take 5 else req.linksToCode
      if links.any (fun l => trimGo l.text == "" || trimGo l.url == "") then
        .error "links_to_code items must include text and url"
      else
        let markup := if trimGo req.markup = "" then "markdown" else req.markup
        if toLowerGo (trimGo markup) ≠ "markdown" ∧ toLowerGo (trimGo markup) ≠ "html" then
          .error "markup must be markdown or html"
        else
          let lang := if trimGo req.lang = "" then cfg.lang else req.lang
          match req.callback with
          | none => .error "callback.url is required for async approval"
          | some cb =>
            if trimGo cb.url = "" then .error "callback.url is required for async approval"
            else
              let timeout :=
                if req.timeoutSec > 0 then req.timeoutSec else cfg.approvalTimeoutSec
              .ok ({ correlationID := req.correlationID, tool := req.tool
                     arguments := arguments, justification := req.justification
                     approvalRequest := req.approvalRequest, linksToCode := links
                     lang := lang, markup := markup, callback := cb }, timeout)

/-- Whether the submission boundary rejects the payload. -/
def rejects (cfg : Config) (req : ApproveRequest) : Bool :=
  match validate cfg req with
  | .error _ => true
  | .ok _ => false

/-- The JSON response of the `/approve` handler plus its HTTP status. -/
structure HttpResponse where
  status : Nat
  decision : String
  reason : String
  correlationID : String
deriving DecidableEq, Repr

/-- Go `ApproveHandler.ServeHTTP` after the JSON decode: validation errors
answer 400 with decision `error` and touch nothing; otherwise
`SubmitApproval` runs and its result is answered with 202 (the 500 branch
requires an empty decision, which `SubmitApproval` never returns). -/
def serveApprove (svc : ServiceCfg) (cfg : Config) (env : Env) (r : Registry)
    (req : ApproveRequest) (now : Nat) : HttpResponse × Registry × List Effect :=
  match validate cfg req with
  | .error e => (⟨400, Decision.error.str, e, ""⟩, r, [])
  | .ok (goReq, timeout) =>
    let (res, r1, effects) := submitApproval svc env r goReq timeout cfg.timeoutMessage now
    (⟨202, res.decision.str, res.reason, req.correlationID⟩, r1, effects)

/-! ## Registry operation traces -/

/-- One registry operation, for reasoning about operation sequences. -/
inductive RegOp where
  | add (req : Request) (now : Nat)
  | setMessage (id : String) (messageID : Int) (messageText : String)
  | startReason (id : String)
  | setPromptMessage (id : String) (messageID : Int)
  | clearPrompt (id : String)
  | resolve (id : String)
deriving DecidableEq, Repr

/-- The state reached by one operation (return values discarded). -/
def applyOp (r : Registry) : RegOp → Registry
  | .add req now => (r.add req now).2
  | .setMessage id messageID messageText => r.setMessage id messageID messageText
  | .startReason id => (r.startReason id).2.2
  | .setPromptMessage id messageID => r.setPromptMessage id messageID
  | .clearPrompt id => (r.clearPrompt id).2
  | .resolve id => (r.resolve id).2

/-- Whether an operation is a `Resolve` of `id` that returns `ok=true`
in state `r`. -/
def resolveWins (r : Registry) (op : RegOp) (id : String) : Bool :=
  match op with
  | .resolve i => i == id && (r.resolve i).1.isSome
  | _ => false

/-- How many operations of the trace are a `Resolve` of `id` returning
`ok=true`, running the trace from `r`. -/
def winCount (r : Registry) (ops : List RegOp) (id : String) : Nat :=
  match ops with
  | [] => 0
  | op :: rest =>
    (if resolveWins r op id then 1 else 0) + winCount (applyOp r op) rest id

/-- How many operations of the trace are an `Add` keyed by `id`. -/
def addCount (ops : List RegOp) (id : String) : Nat :=
  (ops.filter (fun op =>
    match op with
    | .add req _ => req.correlationID == id
    | _ => false)).length

/-- One when `id` is in flight in `r`, else zero. -/
def presentBit (r : Registry) (id : String) : Nat :=
  if (lookupA r.approvals id).isSome then 1 else 0

/-- The awaiting-reason flag of the approval at `id` (`false` if absent). -/
def flagOf (r : Registry) (id : String) : Bool :=
  match lookupA r.approvals id with
  | some a => a.awaitingReason
  | none => false

/-- Run a batch of `Add` calls, recording each call's success. -/
def runAdds (r : Registry) : List (Request × Nat) → Registry × List Bool
  | [] => (r, [])
  | (req, now) :: rest =>
    let step := r.add req now
    let out := runAdds step.2 rest
    (out.1, step.1.isSome :: out.2)

/-! ## Association-list lemmas -/

theorem lookupA_eraseA_self (m : List (String × Approval)) (id : String) :
    lookupA (eraseA m id) id = none := by
  induction m with
  | nil => rfl
  | cons kv rest ih =>
    obtain ⟨k0, v0⟩ := kv
    by_cases h : k0 = id
    · simpa [eraseA, h] using ih
    · simpa [eraseA, lookupA, h] using ih

theorem lookupA_eraseA_ne (m : List (String × Approval)) (id k : String)
    (hne : k ≠ id) : lookupA (eraseA m id) k = lookupA m k := by
  induction m with
  | nil => rfl
  | cons kv rest ih =>
    obtain ⟨k0, v0⟩ := kv
    by_cases h : k0 = id
    · subst h
      simpa [eraseA, lookupA, Ne.symm hne] using ih
    · by_cases hk : k0 = k
      · simp [eraseA, lookupA, h, hk, hne]
      · simpa [eraseA, lookupA, h, hk] using ih

theorem lookupA_updateA_self (m : List (String × Approval)) (id : String)
    (f : Approval → Approval) :
    lookupA (updateA m id f) id = (lookupA m id).map f := by
  induction m with
  | nil => rfl
  | cons kv rest ih =>
    obtain ⟨k0, v0⟩ := kv
    by_cases h : k0 = id
    · simp [updateA, lookupA, h]
    · simpa [updateA, lookupA, h] using ih

theorem lookupA_updateA_ne (m : List (String × Approval)) (id k : String)
    (f : Approval → Approval) (hne : k ≠ id) :
    lookupA (updateA m id f) k = lookupA m k := by
  induction m with
  | nil => rfl
  | cons kv rest ih =>
    obtain ⟨k0, v0⟩ := kv
    by_cases h : k0 = id
    · subst h
      simpa [updateA, lookupA, Ne.symm hne] using ih
    · by_cases hk : k0 = k
      · simp [updateA, lookupA, h, hk, hne]
      · simpa [updateA, lookupA, h, hk] using ih

theorem lookupA_cons_self (m : List (String × Approval)) (id : String) (a : Approval) :
    lookupA ((id, a) :: m) id = some a := by
  simp [lookupA]

theorem lookupA_cons_ne (m : List (String × Approval)) (id k : String) (a : Approval)
    (hne : id ≠ k) : lookupA ((id, a) :: m) k = lookupA m k := by
  simp [lookupA, hne]

theorem lookupA_eq_none_iff (m : List (String × Approval)) (id : String) :
    lookupA m id = none ↔ id ∉ m.map Prod.fst := by
  induction m with
  | nil => simp [lookupA]
  | cons kv rest ih =>
    obtain ⟨k0, v0⟩ := kv
    by_cases h : k0 = id
    · simp [lookupA, h]
    · simp [lookupA, h, ih, Ne.symm h]

theorem keys_updateA (m : List (String × Approval)) (id : String)
    (f : Approval → Approval) :
    (updateA m id f).map Prod.fst = m.map Prod.fst := by
  induction m with
  | nil => rfl
  | cons kv rest ih =>
    obtain ⟨k0, v0⟩ := kv
    by_cases h : k0 = id
    · simpa [updateA, h] using ih
    · simpa [updateA, h] using ih

theorem mem_updateA (m : List (String × Approval)) (id : String)
    (f : Approval → Approval) (kv : String × Approval) (hkv : kv ∈ updateA m id f) :
    (∃ v0, (kv.1, v0) ∈ m ∧ kv.1 = id ∧ kv.2 = f v0) ∨ (kv ∈ m ∧ kv.1 ≠ id) := by
  induction m with
  | nil => simp [updateA] at hkv
  | cons hd rest ih =>
    obtain ⟨k0, v0⟩ := hd
    by_cases h : k0 = id
    · simp only [updateA, if_pos h] at hkv
      rcases List.mem_cons.mp hkv with heq | htail
      · subst heq
        exact Or.inl ⟨v0, by simp [h]⟩
      · rcases ih htail with ⟨w, hw, hkv1, hkv2⟩ | ⟨hmem, hne⟩
        · exact Or.inl ⟨w, List.mem_cons_of_mem _ hw, hkv1, hkv2⟩
        · exact Or.inr ⟨List.mem_cons_of_mem _ hmem, hne⟩
    · simp only [updateA, if_neg h] at hkv
      rcases List.mem_cons.mp hkv with heq | htail
      · subst heq
        exact Or.inr ⟨List.mem_cons_self _ _, h⟩
      · rcases ih htail with ⟨w, hw, hkv1, hkv2⟩ | ⟨hmem, hne⟩
        · exact Or.inl ⟨w, List.mem_cons_of_mem _ hw, hkv1, hkv2⟩
        · exact Or.inr ⟨List.mem_cons_of_mem _ hmem, hne⟩

theorem mem_eraseA (m : List (String × Approval)) (id : String)
    (kv : String × Approval) (hkv : kv ∈ eraseA m id) : kv ∈ m ∧ kv.1 ≠ id := by
  induction m with
  | nil => simp [eraseA] at hkv
  | cons hd rest ih =>
    obtain ⟨k0, v0⟩ := hd
    by_cases h : k0 = id
    · simp only [eraseA, if_pos h] at hkv
      exact ⟨List.mem_cons_of_mem _ (ih hkv).1, (ih hkv).2⟩
    · simp only [eraseA, if_neg h] at hkv
      rcases List.mem_cons.mp hkv with heq | htail
      · subst heq
        exact ⟨List.mem_cons_self _ _, h⟩
      · exact ⟨List.mem_cons_of_mem _ (ih htail).1, (ih htail).2⟩

theorem keys_eraseA_sublist (m : List (String × Approval)) (id : String) :
    ((eraseA m id).map Prod.fst).Sublist (m.map Prod.fst) := by
  induction m with
  | nil => simp [eraseA]
  | cons hd rest ih =>
    obtain ⟨k0, v0⟩ := hd
    by_cases h : k0 = id
    · simp only [eraseA, if_pos h, List.map_cons]
      exact ih.cons k0
    · simp only [eraseA, if_neg h, List.map_cons]
      exact ih.cons₂ k0

/-! ## Registry step lemmas -/

theorem add_of_present (r : Registry) (req : Request) (now : Nat) (a : Approval)
    (h : lookupA r.approvals req.correlationID = some a) :
    r.add req now = (none, r) := by
  simp [Registry.add, h]

theorem add_of_absent (r : Registry) (req : Request) (now : Nat)
    (h : lookupA r.approvals req.correlationID = none) :
    r.add req now =
      (some ⟨req, now, 0, "", false⟩,
        { r with approvals := (req.correlationID, ⟨req, now, 0, "", false⟩) :: r.approvals }) := by
  simp [Registry.add, h]

theorem resolve_of_absent (r : Registry) (id : String)
    (h : lookupA r.approvals id = none) : r.resolve id = (none, r) := by
  simp [Registry.resolve, h]

theorem resolve_of_present (r : Registry) (id : String) (a : Approval)
    (h : lookupA r.approvals id = some a) :
    r.resolve id =
      (if r.promptCorrelation = id then
        (some (a, r.promptMessageID), ⟨eraseA r.approvals id, 0, ""⟩)
      else (some (a, 0), { r with approvals := eraseA r.approvals id })) := by
  simp only [Registry.resolve, h]

theorem resolve_fst_isSome (r : Registry) (id : String) :
    (r.resolve id).1.isSome = (lookupA r.approvals id).isSome := by
  cases hl : lookupA r.approvals id with
  | none =>
    rw [resolve_of_absent r id hl]
    rfl
  | some a =>
    rw [resolve_of_present r id a hl]
    by_cases hpc : r.promptCorrelation = id
    · rw [if_pos hpc]
      rfl
    · rw [if_neg hpc]
      rfl

theorem resolve_removes (r : Registry) (id : String) (a : Approval)
    (h : lookupA r.approvals id = some a) :
    lookupA ((r.resolve id).2).approvals id = none := by
  rw [resolve_of_present r id a h]
  by_cases hpc : r.promptCorrelation = id
  · rw [if_pos hpc]
    exact lookupA_eraseA_self _ _
  · rw [if_neg hpc]
    exact lookupA_eraseA_self _ _

theorem isSome_lookupA_updateA (m : List (String × Approval)) (j k : String)
    (f : Approval → Approval) :
    (lookupA (updateA m j f) k).isSome = (lookupA m k).isSome := by
  by_cases h : k = j
  · subst h
    rw [lookupA_updateA_self]
    cases lookupA m k <;> rfl
  · rw [lookupA_updateA_ne _ _ _ _ h]

theorem presentBit_le_one (r : Registry) (id : String) : presentBit r id ≤ 1 := by
  unfold presentBit
  split <;> simp

theorem presentBit_applyOp_le (r : Registry) (op : RegOp) (id : String)
    (hop : ∀ req now, op = RegOp.add req now → req.correlationID ≠ id) :
    presentBit (applyOp r op) id ≤ presentBit r id := by
  cases op with
  | add req now =>
    have hne := hop req now rfl
    cases hl : lookupA r.approvals req.correlationID with
    | some a => simp [applyOp, add_of_present r req now a hl]
    | none =>
      simp only [applyOp, add_of_absent r req now hl, presentBit]
      rw [lookupA_cons_ne _ _ _ _ hne]
  | setMessage i messageID messageText =>
    cases hl : lookupA r.approvals i with
    | none => simp [applyOp, Registry.setMessage, hl]
    | some a =>
      simp only [applyOp, Registry.setMessage, hl, presentBit]
      rw [isSome_lookupA_updateA]
  | startReason i =>
    cases hl : lookupA r.approvals i with
    | none => simp [applyOp, Registry.startReason, hl]
    | some a =>
      simp only [applyOp, Registry.startReason, hl, presentBit]
      rw [isSome_lookupA_updateA]
      split
      · rw [isSome_lookupA_updateA]
      · exact Nat.le_refl _
  | setPromptMessage i messageID =>
    simp only [applyOp, Registry.setPromptMessage]
    split
    · exact Nat.le_refl _
    · exact Nat.le_refl _
  | clearPrompt i =>
    simp only [applyOp, Registry.clearPrompt]
    split
    · exact Nat.le_refl _
    · simp only [presentBit]
      rw [isSome_lookupA_updateA]
  | resolve i =>
    cases hl : lookupA r.approvals i with
    | none => simp [applyOp, resolve_of_absent r i hl]
    | some a =>
      simp only [applyOp]
      rw [resolve_of_present r i a hl]
      have herase : (if (lookupA (eraseA r.approvals i) id).isSome = true then 1 else 0) ≤
          presentBit r id := by
        by_cases hid : id = i
        · subst hid
          rw [lookupA_eraseA_self]
          simp
        · rw [lookupA_eraseA_ne _ _ _ hid]
          exact Nat.le_refl _
      by_cases hpc : r.promptCorrelation = i
      · rw [if_pos hpc]
        exact herase
      · rw [if_neg hpc]
        exact herase

/-! ## C1 — at most one winning `Resolve` per correlation id -/

/-- C1: (i) along any sequence of registry operations, the number of
`Resolve(id)` calls that return `ok=true` never exceeds the number of
`Add(id)` calls in the sequence plus one if `id` was in flight at the
start — in particular, with `id` admitted once and never re-added (the
button, text/voice and timer paths never call `Add`), at most one
`Resolve(id)` ever wins; (ii) immediately after any `Resolve(id)`, a
second `Resolve(id)` returns `ok=false` and leaves the registry
unchanged. -/
theorem C1_resolve_at_most_once :
    (∀ (r : Registry) (ops : List RegOp) (id : String),
      winCount r ops id ≤ addCount ops id + presentBit r id) ∧
    (∀ (r : Registry) (id : String),
      ((r.resolve id).2).resolve id = (none, (r.resolve id).2)) := by
  constructor
  · intro r ops id
    induction ops generalizing r with
    | nil => simp [winCount, addCount]
    | cons op rest ih =>
      have hstep : winCount r (op :: rest) id =
          (if resolveWins r op id then 1 else 0) + winCount (applyOp r op) rest id := rfl
      by_cases hwin : resolveWins r op id = true
      · cases op with
        | resolve i =>
          simp only [resolveWins, Bool.and_eq_true, beq_iff_eq] at hwin
          obtain ⟨hi, hsome⟩ := hwin
          subst hi
          cases hl : lookupA r.approvals i with
          | none =>
            rw [resolve_fst_isSome, hl] at hsome
            simp at hsome
          | some a =>
            have hafter : presentBit (applyOp r (RegOp.resolve i)) i = 0 := by
              simp [applyOp, presentBit, resolve_removes r i a hl]
            have hpres : presentBit r i = 1 := by
              simp [presentBit, hl]
            have hcount : addCount (RegOp.resolve i :: rest) i = addCount rest i := by
              simp [addCount, List.filter_cons]
            have hrest := ih (applyOp r (RegOp.resolve i))
            rw [hafter, Nat.add_zero] at hrest
            rw [hstep, hcount, hpres]
            have : (if resolveWins r (RegOp.resolve i) i then 1 else 0) ≤ 1 := by
              split <;> simp
            omega
        | add req now => simp [resolveWins] at hwin
        | setMessage i messageID messageText => simp [resolveWins] at hwin
        | startReason i => simp [resolveWins] at hwin
        | setPromptMessage i messageID => simp [resolveWins] at hwin
        | clearPrompt i => simp [resolveWins] at hwin
      · rw [hstep, if_neg hwin, Nat.zero_add]
        by_cases hadd : ∃ req now, op = RegOp.add req now ∧ req.correlationID = id
        · obtain ⟨req, now, rfl, hid⟩ := hadd
          have hcount : addCount (RegOp.add req now :: rest) id = addCount rest id + 1 := by
            simp [addCount, List.filter_cons, hid]
          have hrest := ih (applyOp r (RegOp.add req now))
          have hbd := presentBit_le_one (applyOp r (RegOp.add req now)) id
          rw [hcount]
          omega
        · push_neg at hadd
          have hop : ∀ req now, op = RegOp.add req now → req.correlationID ≠ id := by
            intro req now heq
            exact hadd req now heq
          have hcount : addCount (op :: rest) id = addCount rest id := by
            cases op with
            | add req now => simp [addCount, List.filter_cons, hop req now rfl]
            | setMessage i messageID messageText => simp [addCount, List.filter_cons]
            | startReason i => simp [addCount, List.filter_cons]
            | setPromptMessage i messageID => simp [addCount, List.filter_cons]
            | clearPrompt i => simp [addCount, List.filter_cons]
            | resolve i => simp [addCount, List.filter_cons]
          have hrest := ih (applyOp r op)
          have hbd := presentBit_applyOp_le r op id hop
          rw [hcount]
          omega
  · intro r id
    cases hl : lookupA r.approvals id with
    | none =>
      rw [resolve_of_absent r id hl]
      exact resolve_of_absent r id hl
    | some a =>
      rw [resolve_of_present r id a hl]
      by_cases hpc : r.promptCorrelation = id
      · rw [if_pos hpc]
        exact resolve_of_absent _ id (lookupA_eraseA_self _ id)
      · rw [if_neg hpc]
        exact resolve_of_absent _ id (lookupA_eraseA_self _ id)

/-! ## C4 — `Add` admission semantics -/

theorem runAdds_lookup_preserved (batch : List (Request × Nat)) (r : Registry)
    (id : String) (hid : id ∉ batch.map (fun q => q.1.correlationID)) :
    lookupA (runAdds r batch).1.approvals id = lookupA r.approvals id := by
  induction batch generalizing r with
  | nil => rfl
  | cons q rest ih =>
    obtain ⟨req, now⟩ := q
    simp only [List.map_cons, List.mem_cons] at hid
    push_neg at hid
    obtain ⟨hne, hrest⟩ := hid
    have hstep : lookupA ((r.add req now).2).approvals id = lookupA r.approvals id := by
      cases hl : lookupA r.approvals req.correlationID with
      | some a => rw [add_of_present r req now a hl]
      | none =>
        rw [add_of_absent r req now hl]
        exact lookupA_cons_ne _ _ _ _ (fun hh => hne hh.symm)
    show lookupA (runAdds (r.add req now).2 rest).1.approvals id = _
    rw [ih _ hrest, hstep]

/-- C4: `Add` fails (with `ErrAlreadyExists`) exactly on an in-flight
duplicate, leaving the registry untouched; on a fresh id it inserts
`⟨req, now, 0, "", false⟩` (i.e. `CreatedAt = now`) retrievable via
`Get`; and a batch of `Add`s with pairwise distinct fresh ids all succeed
with every inserted approval independently retrievable afterwards. -/
theorem C4_add_admission :
    (∀ (r : Registry) (req : Request) (now : Nat) (a : Approval),
      lookupA r.approvals req.correlationID = some a → r.add req now = (none, r)) ∧
    (∀ (r : Registry) (req : Request) (now : Nat),
      lookupA r.approvals req.correlationID = none →
      r.add req now =
        (some ⟨req, now, 0, "", false⟩,
          { r with approvals := (req.correlationID, ⟨req, now, 0, "", false⟩) :: r.approvals }) ∧
      ((r.add req now).2).get req.correlationID = some ⟨req, now, 0, "", false⟩) ∧
    (∀ (r : Registry) (batch : List (Request × Nat)),
      (batch.map (fun q => q.1.correlationID)).Nodup →
      (∀ q ∈ batch, lookupA r.approvals q.1.correlationID = none) →
      (∀ ok ∈ (runAdds r batch).2, ok = true) ∧
      (∀ q ∈ batch,
        (runAdds r batch).1.get q.1.correlationID = some ⟨q.1, q.2, 0, "", false⟩)) := by
  refine ⟨fun r req now a h => add_of_present r req now a h, ?_, ?_⟩
  · intro r req now h
    refine ⟨add_of_absent r req now h, ?_⟩
    rw [add_of_absent r req now h]
    exact lookupA_cons_self _ _ _
  · intro r batch hnodup habs
    induction batch generalizing r with
    | nil => exact ⟨fun ok h => absurd h (List.not_mem_nil ok), fun q h => absurd h (List.not_mem_nil q)⟩
    | cons q rest ih =>
      obtain ⟨req, now⟩ := q
      simp only [List.map_cons, List.nodup_cons] at hnodup
      obtain ⟨hhead, hrestnodup⟩ := hnodup
      have hfresh : lookupA r.approvals req.correlationID = none :=
        habs (req, now) (List.mem_cons_self _ _)
      have hadd := add_of_absent r req now hfresh
      have habs1 : ∀ p ∈ rest, lookupA ((r.add req now).2).approvals p.1.correlationID = none := by
        intro p hp
        have hne : p.1.correlationID ≠ req.correlationID := by
          intro heq
          exact hhead (heq ▸ List.mem_map.mpr ⟨p, hp, rfl⟩)
        rw [hadd, lookupA_cons_ne _ _ _ _ (fun hh => hne hh.symm)]
        exact habs p (List.mem_cons_of_mem _ hp)
      have hrest := ih ((r.add req now).2) hrestnodup habs1
      have hshape : runAdds r ((req, now) :: rest) =
          ((runAdds (r.add req now).2 rest).1,
            (r.add req now).1.isSome :: (runAdds (r.add req now).2 rest).2) := rfl
      constructor
      · intro ok hok
        rw [hshape] at hok
        rcases List.mem_cons.mp hok with heq | htail
        · rw [heq, hadd]
          rfl
        · exact hrest.1 ok htail
      · intro p hp
        rcases List.mem_cons.mp hp with heq | htail
        · subst heq
          rw [hshape]
          show (runAdds (r.add req now).2 rest).1.get req.correlationID = _
          unfold Registry.get
          rw [runAdds_lookup_preserved rest _ _ ?notin]
          case notin =>
            intro hmem
            rcases List.mem_map.mp hmem with ⟨p0, hp0, hpeq⟩
            exact hhead (hpeq ▸ List.mem_map.mpr ⟨p0, hp0, rfl⟩)
          rw [hadd]
          exact lookupA_cons_self _ _ _
        · rw [hshape]
          exact hrest.2 p htail

/-- Witness for C4: two distinct admissions into the empty registry both
succeed and are independently retrievable with their admission ticks. -/
theorem C4_add_admission_witness :
    (runAdds newRegistry
        [(⟨"req-a", "tool-a", [], "", "", [], "", "", ⟨"http://cb/a"⟩⟩, 3),
         (⟨"req-b", "tool-b", [], "", "", [], "", "", ⟨"http://cb/b"⟩⟩, 4)]).1.get "req-b" =
      some ⟨⟨"req-b", "tool-b", [], "", "", [], "", "", ⟨"http://cb/b"⟩⟩, 4, 0, "", false⟩ := by
  have h := (C4_add_admission.2.2 newRegistry
    [(⟨"req-a", "tool-a", [], "", "", [], "", "", ⟨"http://cb/a"⟩⟩, 3),
     (⟨"req-b", "tool-b", [], "", "", [], "", "", ⟨"http://cb/b"⟩⟩, 4)]
    (by decide) (by intro q hq; fin_cases hq <;> rfl)).2
  exact h (⟨"req-b", "tool-b", [], "", "", [], "", "", ⟨"http://cb/b"⟩⟩, 4)
    (by simp)

/-! ## C5 — the deny-prompt invariant -/

/-- The awaiting-reason flag stored at `k` (`false` when absent). -/
def flagL (m : List (String × Approval)) (k : String) : Bool :=
  match lookupA m k with
  | some a => a.awaitingReason
  | none => false

theorem lookupA_mem (m : List (String × Approval)) (k : String) (a : Approval)
    (h : lookupA m k = some a) : (k, a) ∈ m := by
  induction m with
  | nil => simp [lookupA] at h
  | cons kv rest ih =>
    obtain ⟨k0, v0⟩ := kv
    by_cases hk : k0 = k
    · subst hk
      simp [lookupA] at h
      subst h
      exact List.mem_cons_self _ _
    · simp only [lookupA, if_neg hk] at h
      exact List.mem_cons_of_mem _ (ih h)

theorem nodup_keys_eq (m : List (String × Approval))
    (hnd : (m.map Prod.fst).Nodup) (kv1 kv2 : String × Approval)
    (h1 : kv1 ∈ m) (h2 : kv2 ∈ m) (hk : kv1.1 = kv2.1) : kv1 = kv2 := by
  induction m with
  | nil => cases h1
  | cons hd rest ih =>
    simp only [List.map_cons, List.nodup_cons] at hnd
    obtain ⟨hhd, hrest⟩ := hnd
    rcases List.mem_cons.mp h1 with rfl | h1'
    · rcases List.mem_cons.mp h2 with rfl | h2'
      · rfl
      · exact absurd (hk ▸ List.mem_map.mpr ⟨kv2, h2', rfl⟩) hhd
    · rcases List.mem_cons.mp h2 with rfl | h2'
      · exact absurd (hk ▸ List.mem_map.mpr ⟨kv1, h1', rfl⟩) hhd
      · exact ih hrest h1' h2'

theorem forall_keys_updateA (m : List (String × Approval)) (j : String)
    (f : Approval → Approval) (P : String → Prop) (h : ∀ kv ∈ m, P kv.1) :
    ∀ kv ∈ updateA m j f, P kv.1 := by
  intro kv hkv
  rcases mem_updateA m j f kv hkv with ⟨v0, hv0, _, _⟩ | ⟨hmem, _⟩
  · exact h (kv.1, v0) hv0
  · exact h _ hmem

theorem flagL_updateA_of_preserve (m : List (String × Approval)) (j k : String)
    (f : Approval → Approval) (hf : ∀ a, (f a).awaitingReason = a.awaitingReason) :
    flagL (updateA m j f) k = flagL m k := by
  unfold flagL
  by_cases h : k = j
  · subst h
    rw [lookupA_updateA_self]
    cases lookupA m k with
    | none => rfl
    | some a => simp [hf]
  · rw [lookupA_updateA_ne _ _ _ _ h]

/-- The structural invariant of the registry: keys are unique and
non-empty, every flagged approval is the prompt holder, and a non-empty
prompt pointer names a present, flagged approval. -/
def Inv (r : Registry) : Prop :=
  (r.approvals.map Prod.fst).Nodup ∧
  (∀ kv ∈ r.approvals, kv.1 ≠ "") ∧
  (∀ kv ∈ r.approvals, kv.2.awaitingReason = true → kv.1 = r.promptCorrelation) ∧
  (r.promptCorrelation ≠ "" → flagL r.approvals r.promptCorrelation = true)

theorem Inv_newRegistry : Inv newRegistry := by
  refine ⟨List.nodup_nil, ?_, ?_, ?_⟩ <;> simp [newRegistry, flagL, lookupA]

theorem Inv_preserved (r : Registry) (op : RegOp) (hInv : Inv r)
    (hop : ∀ req now, op = RegOp.add req now → req.correlationID ≠ "") :
    Inv (applyOp r op) := by
  obtain ⟨hnd, hkeys, hflag, hprompt⟩ := hInv
  cases op with
  | add req now =>
    have hid := hop req now rfl
    cases hl : lookupA r.approvals req.correlationID with
    | some a =>
      have heq : applyOp r (RegOp.add req now) = r := by
        simp [applyOp, add_of_present r req now a hl]
      rw [heq]
      exact ⟨hnd, hkeys, hflag, hprompt⟩
    | none =>
      have heq : applyOp r (RegOp.add req now) =
          { r with approvals :=
              (req.correlationID, ⟨req, now, 0, "", false⟩) :: r.approvals } := by
        simp [applyOp, add_of_absent r req now hl]
      rw [heq]
      refine ⟨?_, ?_, ?_, ?_⟩
      · simp only [List.map_cons, List.nodup_cons]
        exact ⟨(lookupA_eq_none_iff _ _).mp hl, hnd⟩
      · intro kv hkv
        rcases List.mem_cons.mp hkv with rfl | hm
        · exact hid
        · exact hkeys kv hm
      · intro kv hkv hf
        rcases List.mem_cons.mp hkv with rfl | hm
        · simp at hf
        · exact hflag kv hm hf
      · intro hpc
        have hne : req.correlationID ≠ r.promptCorrelation := by
          intro heq2
          have hfl := hprompt hpc
          unfold flagL at hfl
          rw [← heq2, hl] at hfl
          simp at hfl
        show flagL _ _ = true
        unfold flagL
        rw [lookupA_cons_ne _ _ _ _ hne]
        exact hprompt hpc
  | setMessage i messageID messageText =>
    cases hl : lookupA r.approvals i with
    | none =>
      have heq : applyOp r (RegOp.setMessage i messageID messageText) = r := by
        simp [applyOp, Registry.setMessage, hl]
      rw [heq]
      exact ⟨hnd, hkeys, hflag, hprompt⟩
    | some a =>
      have heq : applyOp r (RegOp.setMessage i messageID messageText) =
          { r with approvals := updateA r.approvals i (fun a => { a with messageID := messageID, messageText := messageText }) } := by
        simp [applyOp, Registry.setMessage, hl]
      rw [heq]
      refine ⟨?_, ?_, ?_, ?_⟩
      · simpa [keys_updateA] using hnd
      · exact forall_keys_updateA _ _ _ (fun k => k ≠ "") hkeys
      · intro kv hkv hf
        rcases mem_updateA _ _ _ kv hkv with ⟨v0, hv0, hk1, hk2⟩ | ⟨hm, _⟩
        · rw [hk2] at hf
          exact hflag (kv.1, v0) hv0 hf
        · exact hflag kv hm hf
      · intro hpc
        show flagL (updateA r.approvals i (fun a => { a with messageID := messageID, messageText := messageText })) r.promptCorrelation = true
        rw [flagL_updateA_of_preserve r.approvals i r.promptCorrelation (fun a => { a with messageID := messageID, messageText := messageText }) (fun a => rfl)]
        exact hprompt hpc
  | startReason i =>
    cases hl : lookupA r.approvals i with
    | none =>
      have heq : applyOp r (RegOp.startReason i) = r := by
        simp [applyOp, Registry.startReason, hl]
      rw [heq]
      exact ⟨hnd, hkeys, hflag, hprompt⟩
    | some a =>
      have hine : i ≠ "" := hkeys (i, a) (lookupA_mem _ _ _ hl)
      by_cases hprev : r.promptCorrelation ≠ "" ∧ r.promptCorrelation ≠ i
      · have heq : applyOp r (RegOp.startReason i) =
            { approvals := updateA (updateA r.approvals r.promptCorrelation (fun a => { a with awaitingReason := false })) i (fun a => { a with awaitingReason := true }),
              promptMessageID := 0, promptCorrelation := i } := by
          simp [applyOp, Registry.startReason, hl, hprev]
        rw [heq]
        refine ⟨?_, ?_, ?_, ?_⟩
        · simpa [keys_updateA] using hnd
        · exact forall_keys_updateA _ _ _ (fun k => k ≠ "") (forall_keys_updateA _ _ _ (fun k => k ≠ "") hkeys)
        · intro kv hkv hf
          rcases mem_updateA _ _ _ kv hkv with ⟨v0, hv0, hk1, hk2⟩ | ⟨hm1, hne_i⟩
          · exact hk1
          · rcases mem_updateA _ _ _ kv hm1 with ⟨v0, hv0, hkpc, hkv2⟩ | ⟨hm, hne_pc⟩
            · rw [hkv2] at hf
              simp at hf
            · exact absurd (hflag kv hm hf) hne_pc
        · intro _
          show flagL _ _ = true
          unfold flagL
          rw [lookupA_updateA_self, lookupA_updateA_ne _ _ _ _ (fun hh => hprev.2 hh.symm), hl]
          rfl
      · have heq : applyOp r (RegOp.startReason i) =
            { approvals := updateA r.approvals i (fun a => { a with awaitingReason := true }),
              promptMessageID := 0, promptCorrelation := i } := by
          simp [applyOp, Registry.startReason, hl, hprev]
        rw [heq]
        push_neg at hprev
        refine ⟨?_, ?_, ?_, ?_⟩
        · simpa [keys_updateA] using hnd
        · exact forall_keys_updateA _ _ _ (fun k => k ≠ "") hkeys
        · intro kv hkv hf
          rcases mem_updateA _ _ _ kv hkv with ⟨v0, hv0, hk1, hk2⟩ | ⟨hm, hne_i⟩
          · exact hk1
          · have hkpc := hflag kv hm hf
            by_cases hpce : r.promptCorrelation = ""
            · exact absurd (hkpc.trans hpce) (hkeys kv hm)
            · exact absurd (hkpc.trans (hprev hpce)) hne_i
        · intro _
          show flagL _ _ = true
          unfold flagL
          rw [lookupA_updateA_self, hl]
          rfl
  | setPromptMessage i messageID =>
    simp only [applyOp, Registry.setPromptMessage]
    split
    · exact ⟨hnd, hkeys, hflag, hprompt⟩
    · exact ⟨hnd, hkeys, hflag, hprompt⟩
  | clearPrompt i =>
    by_cases hc : r.promptCorrelation ≠ i
    · have heq : applyOp r (RegOp.clearPrompt i) = r := by
        simp [applyOp, Registry.clearPrompt, hc]
      rw [heq]
      exact ⟨hnd, hkeys, hflag, hprompt⟩
    · push_neg at hc
      have heq : applyOp r (RegOp.clearPrompt i) =
          { approvals := updateA r.approvals i (fun a => { a with awaitingReason := false }),
            promptMessageID := 0, promptCorrelation := "" } := by
        simp [applyOp, Registry.clearPrompt, hc]
      rw [heq]
      refine ⟨?_, ?_, ?_, ?_⟩
      · simpa [keys_updateA] using hnd
      · exact forall_keys_updateA _ _ _ (fun k => k ≠ "") hkeys
      · intro kv hkv hf
        rcases mem_updateA _ _ _ kv hkv with ⟨v0, hv0, hk1, hk2⟩ | ⟨hm, hne_i⟩
        · rw [hk2] at hf
          simp at hf
        · exact absurd ((hflag kv hm hf).trans hc) hne_i
      · intro h
        exact absurd rfl h
  | resolve i =>
    cases hl : lookupA r.approvals i with
    | none =>
      have heq : applyOp r (RegOp.resolve i) = r := by
        simp [applyOp, resolve_of_absent r i hl]
      rw [heq]
      exact ⟨hnd, hkeys, hflag, hprompt⟩
    | some a =>
      by_cases hpc : r.promptCorrelation = i
      · have heq : applyOp r (RegOp.resolve i) =
            { approvals := eraseA r.approvals i,
              promptMessageID := 0, promptCorrelation := "" } := by
          simp [applyOp, resolve_of_present r i a hl, hpc]
        rw [heq]
        refine ⟨?_, ?_, ?_, ?_⟩
        · exact List.Nodup.sublist (keys_eraseA_sublist _ _) hnd
        · intro kv hkv
          exact hkeys kv (mem_eraseA _ _ kv hkv).1
        · intro kv hkv hf
          rcases mem_eraseA _ _ kv hkv with ⟨hm, hne_i⟩
          exact absurd ((hflag kv hm hf).trans hpc) hne_i
        · intro h
          exact absurd rfl h
      · have heq : applyOp r (RegOp.resolve i) =
            { r with approvals := eraseA r.approvals i } := by
          simp [applyOp, resolve_of_present r i a hl, hpc]
        rw [heq]
        refine ⟨?_, ?_, ?_, ?_⟩
        · exact List.Nodup.sublist (keys_eraseA_sublist _ _) hnd
        · intro kv hkv
          exact hkeys kv (mem_eraseA _ _ kv hkv).1
        · intro kv hkv hf
          exact hflag kv (mem_eraseA _ _ kv hkv).1 hf
        · intro hpcne
          have hfl := hprompt hpcne
          show flagL _ _ = true
          unfold flagL at hfl ⊢
          rw [lookupA_eraseA_ne _ _ _ hpc]
          exact hfl

theorem Inv_at_most_one (r : Registry) (hInv : Inv r) :
    ∀ kv1, kv1 ∈ r.approvals → ∀ kv2, kv2 ∈ r.approvals →
      kv1.2.awaitingReason = true → kv2.2.awaitingReason = true → kv1 = kv2 := by
  obtain ⟨hnd, _, hflag, _⟩ := hInv
  intro kv1 h1 kv2 h2 hf1 hf2
  exact nodup_keys_eq _ hnd kv1 kv2 h1 h2 ((hflag kv1 h1 hf1).trans (hflag kv2 h2 hf2).symm)

theorem Inv_prompt_chars (r : Registry) (hInv : Inv r)
    (hpc : r.promptCorrelation ≠ "") :
    ∃ a, lookupA r.approvals r.promptCorrelation = some a ∧ a.awaitingReason = true ∧
      ∀ kv ∈ r.approvals, kv.1 ≠ r.promptCorrelation → kv.2.awaitingReason = false := by
  obtain ⟨hnd, hkeys, hflag, hprompt⟩ := hInv
  have hf := hprompt hpc
  unfold flagL at hf
  cases hl : lookupA r.approvals r.promptCorrelation with
  | none =>
    rw [hl] at hf
    simp at hf
  | some a =>
    rw [hl] at hf
    refine ⟨a, rfl, hf, ?_⟩
    intro kv hkv hne
    by_contra hcontra
    simp only [Bool.not_eq_false] at hcontra
    exact hne (hflag kv hkv hcontra)

/-! ## Concrete fixtures for witnesses and counterexamples -/

/-- A valid callback target. -/
def cbFix : Callback := ⟨"http://callback.example/hook"⟩

/-- An admitted request with correlation id `"c1"`. -/
def reqC1 : Request := ⟨"c1", "tool-one", [], "", "", [], "", "", cbFix⟩

/-- An admitted request with correlation id `"c2"`. -/
def reqC2 : Request := ⟨"c2", "tool-two", [], "", "", [], "", "", cbFix⟩

/-- Fixture: `reqC1` in flight and holding the deny prompt (prompt message 7). -/
def apprC1 : Approval := ⟨reqC1, 0, 10, "message text one", true⟩

/-- Fixture: `reqC2` in flight, not flagged. -/
def apprC2 : Approval := ⟨reqC2, 1, 11, "message text two", false⟩

/-- A registry where `"c1"` holds the deny prompt and `"c2"` is pending. -/
def regPrompt : Registry := ⟨[("c1", apprC1), ("c2", apprC2)], 7, "c1"⟩

/-- A request whose correlation id is the empty string (accepted by
`Registry.Add` itself; only the HTTP boundary rejects it). -/
def reqEmptyId : Request := ⟨"", "tool-e", [], "", "", [], "", "", cbFix⟩

/-- A request with correlation id `"x"`. -/
def reqXId : Request := ⟨"x", "tool-x", [], "", "", [], "", "", cbFix⟩

/-- C5 (counterexample): the invariant is *not* preserved by every
operation: admitting the empty-string correlation id, starting its deny
prompt (which leaves the prompt pointer empty because the empty id is the
pointer's none-sentinel), then starting the prompt of a second id leaves
two in-flight approvals with the awaiting-reason flag set at once. -/
theorem C5_counterexample :
    ((applyOp (applyOp (applyOp (applyOp newRegistry
        (RegOp.add reqEmptyId 0)) (RegOp.startReason "")) (RegOp.add reqXId 1))
        (RegOp.startReason "x")).approvals.filter
      (fun kv => kv.2.awaitingReason)).length = 2 := by decide

/-- C5 (amended): restricted to non-empty correlation ids — which the
submission boundary guarantees (`correlation_id is required`) — the
invariant holds of the fresh registry, is preserved by every operation,
and implies the claim: at most one in-flight approval is flagged, and a
non-empty prompt pointer names a present flagged approval while every
other in-flight approval is unflagged. -/
theorem C5_prompt_invariant_amended :
    Inv newRegistry ∧
    (∀ (r : Registry) (op : RegOp), Inv r →
      (∀ req now, op = RegOp.add req now → req.correlationID ≠ "") →
      Inv (applyOp r op)) ∧
    (∀ r : Registry, Inv r →
      (∀ kv1, kv1 ∈ r.approvals → ∀ kv2, kv2 ∈ r.approvals →
        kv1.2.awaitingReason = true → kv2.2.awaitingReason = true → kv1 = kv2) ∧
      (r.promptCorrelation ≠ "" →
        ∃ a, lookupA r.approvals r.promptCorrelation = some a ∧ a.awaitingReason = true ∧
          ∀ kv ∈ r.approvals, kv.1 ≠ r.promptCorrelation → kv.2.awaitingReason = false)) :=
  ⟨Inv_newRegistry, Inv_preserved,
    fun r h => ⟨Inv_at_most_one r h, fun hpc => Inv_prompt_chars r h hpc⟩⟩

/-- Witness for the amended C5: the invariant holds of a concrete
two-entry registry and survives a concrete `StartReason` handover. -/
theorem C5_prompt_invariant_amended_witness :
    Inv (applyOp regPrompt (RegOp.startReason "c2")) :=
  C5_prompt_invariant_amended.2.1 regPrompt (RegOp.startReason "c2")
    (by unfold Inv; decide) (by intro req now h; simp at h)

/-! ## C6 — `StartReason` handover -/

/-- C6: when the prompt holder is `A = r.promptCorrelation` (with its
prompt message id last set by `SetPromptMessage`) and `StartReason(B)` is
called for a different in-flight `B`: the call returns `A`'s last-set
prompt message id with `ok=true`, the new state's prompt pointer is `B`
with prompt message id reset to 0, `A`'s awaiting-reason flag is false,
and `CurrentPrompt()` returns `B`'s approval (now flagged) with prompt
message id 0.  `StartReason` of an absent id returns `ok=false` and
changes nothing. -/
theorem C6_start_reason_handover :
    (∀ (r : Registry) (b : String) (messageID : Int) (ab : Approval),
      r.promptCorrelation ≠ "" → r.promptCorrelation ≠ b → b ≠ "" →
      lookupA r.approvals b = some ab →
      (r.setPromptMessage r.promptCorrelation messageID).startReason b =
        (messageID, true,
          { approvals := updateA (updateA r.approvals r.promptCorrelation (fun a => { a with awaitingReason := false })) b (fun a => { a with awaitingReason := true }),
            promptMessageID := 0, promptCorrelation := b }) ∧
      flagOf ((r.setPromptMessage r.promptCorrelation messageID).startReason b).2.2
          r.promptCorrelation = false ∧
      ((r.setPromptMessage r.promptCorrelation messageID).startReason b).2.2.currentPrompt =
        some ({ ab with awaitingReason := true }, 0)) ∧
    (∀ (r : Registry) (id : String), lookupA r.approvals id = none →
      r.startReason id = (0, false, r)) := by
  constructor
  · intro r b messageID ab hpcne hpcb hbne hlb
    have hr1 : r.setPromptMessage r.promptCorrelation messageID =
        { r with promptMessageID := messageID } := by
      simp [Registry.setPromptMessage]
    have hsr : (r.setPromptMessage r.promptCorrelation messageID).startReason b =
        (messageID, true,
          { approvals := updateA (updateA r.approvals r.promptCorrelation (fun a => { a with awaitingReason := false })) b (fun a => { a with awaitingReason := true }),
            promptMessageID := 0, promptCorrelation := b }) := by
      rw [hr1]
      simp [Registry.startReason, hlb, hpcne, hpcb]
    refine ⟨hsr, ?_, ?_⟩
    · rw [hsr]
      show flagOf _ _ = false
      unfold flagOf
      simp only
      rw [lookupA_updateA_ne _ _ _ _ hpcb, lookupA_updateA_self]
      cases lookupA r.approvals r.promptCorrelation <;> rfl
    · rw [hsr]
      show Registry.currentPrompt _ = _
      unfold Registry.currentPrompt
      simp only
      rw [if_neg hbne, lookupA_updateA_self,
        lookupA_updateA_ne _ _ _ _ (fun hh => hpcb hh.symm), hlb]
      rfl
  · intro r id h
    simp [Registry.startReason, h]

/-- Witness for C6: the concrete handover from `"c1"` to `"c2"` in
`regPrompt` hands the free-text listener to `"c2"`. -/
theorem C6_start_reason_handover_witness :
    ((regPrompt.setPromptMessage regPrompt.promptCorrelation 7).startReason "c2").2.2.currentPrompt =
      some ({ apprC2 with awaitingReason := true }, 0) :=
  (C6_start_reason_handover.1 regPrompt "c2" 7 apprC2
    (by decide) (by decide) (by decide) (by decide)).2.2

/-! ## Webhook-effect helpers -/

/-- The webhook POST attempts among a list of effects. -/
def webhookPosts (effects : List Effect) : List (String × List (String × String) × Nat) :=
  effects.filterMap fun e =>
    match e with
    | .webhookPost url payload t => some (url, payload, t)
    | _ => none

theorem webhookPosts_append (l1 l2 : List Effect) :
    webhookPosts (l1 ++ l2) = webhookPosts l1 ++ webhookPosts l2 := by
  simp [webhookPosts]

theorem webhookPosts_deleteEffects (h : Handler) (messageID : Int) :
    webhookPosts (h.deleteMessageEffects messageID) = [] := by
  unfold Handler.deleteMessageEffects
  split <;> simp [webhookPosts]

theorem webhookPosts_finalize (h : Handler) (env : Env) (approval : Approval)
    (result : Result) (timeoutMessage : String)
    (hurl : trimGo approval.request.callback.url ≠ "")
    (hbuild : env.requestBuildOk = true) :
    webhookPosts (h.finalizeApproval env approval result timeoutMessage) =
      [(approval.request.callback.url,
        [("correlation_id", approval.request.correlationID),
         ("decision", result.decision.str),
         ("reason", result.reason),
         ("tool", approval.request.tool)], 10)] := by
  cases h1 : env.editOk <;> cases h2 : env.postOk <;>
    simp [webhookPosts, Handler.finalizeApproval, Handler.sendWebhook, hurl, hbuild, h1, h2]

/-- The localized strings used by the concrete fixtures. -/
def msgsEN : Messages :=
  ⟨"Invalid chat", "Invalid action", "Already resolved", "Approved", "Denied",
    "Error", "Timeout", "Send deny reason", "Voice disabled", "Transcription failed"⟩

/-- A handler for the reviewer chat `1`. -/
def handlerFix : Handler := ⟨1, [("en", msgsEN)], "en", "en", true⟩

/-- An oracle where every external call succeeds. -/
def envFix : Env := ⟨some 5, true, true, true, some "voice text"⟩

/-- An oracle where the webhook POST fails. -/
def envPostFail : Env := ⟨some 5, true, true, false, some "voice text"⟩

/-! ## C2 — exactly one webhook POST per finalization -/

/-- C2: whenever a resolved approval is finalized (its callback URL
being non-blank, as admission guarantees, and the URL parseable so the
request can be built), the effect trace contains exactly one webhook POST
— to the request's callback URL, with payload exactly
`{correlation_id, decision, reason, tool}` and the 10-second client
timeout — for every oracle, i.e. independently of whether the message
edit succeeds and of whether the POST itself succeeds (a failed POST adds
one log entry and is never retried); the chat-message edit is attempted
first regardless. -/
theorem C2_finalize_single_webhook :
    ∀ (h : Handler) (env : Env) (approval : Approval) (result : Result)
      (timeoutMessage : String),
      trimGo approval.request.callback.url ≠ "" → env.requestBuildOk = true →
      webhookPosts (h.finalizeApproval env approval result timeoutMessage) =
        [(approval.request.callback.url,
          [("correlation_id", approval.request.correlationID),
           ("decision", result.decision.str),
           ("reason", result.reason),
           ("tool", approval.request.tool)], 10)] ∧
      (env.postOk = false →
        Effect.logError "Webhook delivery failed" ∈
          h.finalizeApproval env approval result timeoutMessage) ∧
      (h.finalizeApproval env approval result timeoutMessage).head? =
        some (Effect.editMessage h.chatID approval.messageID
          (if trimGo (noteForResult (h.messageFor approval.request.lang) result timeoutMessage) ≠ "" then approval.messageText ++ "\n\n" ++ noteForResult (h.messageFor approval.request.lang) result timeoutMessage else approval.messageText)
          (parseModeHandlers approval.request.markup)) := by
  intro h env approval result timeoutMessage hurl hbuild
  refine ⟨webhookPosts_finalize h env approval result timeoutMessage hurl hbuild, ?_, rfl⟩
  intro hpost
  cases h1 : env.editOk <;>
    simp [Handler.finalizeApproval, Handler.sendWebhook, hurl, hbuild, hpost, h1]

/-- Witness for C2: finalizing the concrete approval `apprC1` with a deny
result and a failing POST still yields exactly that one POST attempt. -/
theorem C2_finalize_single_webhook_witness :
    webhookPosts (handlerFix.finalizeApproval envPostFail apprC1 ⟨.deny, "nope"⟩ "") =
      [("http://callback.example/hook",
        [("correlation_id", "c1"), ("decision", "deny"),
         ("reason", "nope"), ("tool", "tool-one")], 10)] :=
  (C2_finalize_single_webhook handlerFix envPostFail apprC1 ⟨.deny, "nope"⟩ ""
    (by decide) rfl).1

/-! ## C7 — foreign-chat rejection -/

/-- C7 (counterexample): a chat *message* from a foreign chat is
dropped with **no** notice at all — the effect list is empty even though
a non-empty invalid-chat notice is configured — so the claim that every
foreign update is answered with the invalid-chat notice is false; only
button presses are. -/
theorem C7_counterexample :
    handlerFix.handleMessage envFix regPrompt ⟨99, "hello", false⟩ = (regPrompt, []) ∧
    (handlerFix.messageFor "").invalidChat = "Invalid chat" := by
  constructor
  · decide
  · rfl

/-- C7 (amended): every inbound update whose chat differs from the
configured reviewer chat causes no registry mutation; a button press is
answered with the fixed invalid-chat notice, while a chat message is
ignored silently (no notice). -/
theorem C7_wrong_chat_amended :
    (∀ (h : Handler) (env : Env) (r : Registry) (q : CallbackQuery) (chat : Int),
      q.messageChat = some chat → chat ≠ h.chatID →
      h.handleCallback env r q =
        (r, [answerCallbackEffect q.id (h.messageFor "").invalidChat])) ∧
    (∀ (h : Handler) (env : Env) (r : Registry) (m : ChatMessage),
      m.chatID ≠ h.chatID → h.handleMessage env r m = (r, [])) := by
  constructor
  · intro h env r q chat hq hne
    unfold Handler.handleCallback
    rw [hq]
    simp [Handler.allowedChat, hne]
  · intro h env r m hne
    unfold Handler.handleMessage
    simp [Handler.allowedChat, hne]

/-- Witness for the amended C7: a concrete foreign-chat button press is
answered with the invalid-chat notice and mutates nothing. -/
theorem C7_wrong_chat_amended_witness :
    handlerFix.handleCallback envFix regPrompt ⟨"q1", "approve:c1", some 99⟩ =
      (regPrompt, [answerCallbackEffect "q1" (handlerFix.messageFor "").invalidChat]) :=
  C7_wrong_chat_amended.1 handlerFix envFix regPrompt ⟨"q1", "approve:c1", some 99⟩ 99
    rfl (by decide)

/-! ## C8 — free-text reply becomes the denial reason -/

theorem currentPrompt_inv (r : Registry) (approval : Approval) (promptID : Int)
    (hcp : r.currentPrompt = some (approval, promptID)) :
    r.promptCorrelation ≠ "" ∧
    lookupA r.approvals r.promptCorrelation = some approval ∧
    approval.awaitingReason = true ∧ promptID = r.promptMessageID := by
  unfold Registry.currentPrompt at hcp
  by_cases hpc : r.promptCorrelation = ""
  · rw [if_pos hpc] at hcp
    cases hcp
  · rw [if_neg hpc] at hcp
    cases hl : lookupA r.approvals r.promptCorrelation with
    | none =>
      rw [hl] at hcp
      cases hcp
    | some x =>
      rw [hl] at hcp
      have hcp2 : (if x.awaitingReason = true then some (x, r.promptMessageID) else none) =
          some (approval, promptID) := hcp
      by_cases hfl : x.awaitingReason = true
      · rw [if_pos hfl] at hcp2
        have hpair := Option.some.inj hcp2
        have hx : x = approval := congrArg Prod.fst hpair
        have hp : r.promptMessageID = promptID := congrArg Prod.snd hpair
        subst hx
        exact ⟨hpc, rfl, hfl, hp.symm⟩
      · rw [if_neg hfl] at hcp2
        cases hcp2

/-- C8: a free-text reply from the reviewer chat, while an approval
awaits a deny reason (its correlation id keyed under itself, callback URL
non-blank, request buildable), produces exactly one webhook POST whose
decision is `deny` and whose reason is the trimmed message body —
defaulting to `"denied"` when the body trims to nothing. -/
theorem C8_text_reply_deny_reason :
    ∀ (h : Handler) (env : Env) (r : Registry) (m : ChatMessage)
      (approval : Approval) (promptID : Int),
      m.chatID = h.chatID → m.text ≠ "" →
      r.currentPrompt = some (approval, promptID) →
      r.promptCorrelation = approval.request.correlationID →
      trimGo approval.request.callback.url ≠ "" → env.requestBuildOk = true →
      webhookPosts (h.handleMessage env r m).2 =
        [(approval.request.callback.url,
          [("correlation_id", approval.request.correlationID),
           ("decision", "deny"),
           ("reason", if trimGo m.text = "" then "denied" else trimGo m.text),
           ("tool", approval.request.tool)], 10)] := by
  intro h env r m approval promptID hchat htext hcp hk hurl hbuild
  obtain ⟨hpc, hl, hfl, hpid⟩ := currentPrompt_inv r approval promptID hcp
  have hl2 : lookupA r.approvals approval.request.correlationID = some approval := by
    rw [← hk]
    exact hl
  have hred : h.handleMessage env r m =
      (match r.resolve approval.request.correlationID with
        | (none, r1) => (r1, ([] : List Effect))
        | (some (resolved, pid), r1) =>
          (r1, (if pid > 0 then h.deleteMessageEffects pid else []) ++
            h.finalizeApproval env resolved
              ⟨.deny, if trimGo m.text = "" then "denied" else trimGo m.text⟩ "")) := by
    unfold Handler.handleMessage
    rw [hcp]
    simp [Handler.allowedChat, hchat, hfl, htext]
  rw [hred, resolve_of_present r approval.request.correlationID approval hl2, if_pos hk]
  show webhookPosts
      ((if r.promptMessageID > 0 then h.deleteMessageEffects r.promptMessageID else []) ++
        h.finalizeApproval env approval
          ⟨.deny, if trimGo m.text = "" then "denied" else trimGo m.text⟩ "") = _
  rw [webhookPosts_append]
  have hdel : webhookPosts
      (if r.promptMessageID > 0 then h.deleteMessageEffects r.promptMessageID else []) = [] := by
    split
    · exact webhookPosts_deleteEffects h _
    · rfl
  rw [hdel, List.nil_append]
  exact webhookPosts_finalize h env approval
    ⟨.deny, if trimGo m.text = "" then "denied" else trimGo m.text⟩ "" hurl hbuild

/-- Witness for C8: the concrete reply `"  bad idea  "` to `regPrompt`'s
prompt holder denies `"c1"` with reason `"bad idea"`. -/
theorem C8_text_reply_deny_reason_witness :
    webhookPosts (handlerFix.handleMessage envFix regPrompt ⟨1, "  bad idea  ", false⟩).2 =
      [("http://callback.example/hook",
        [("correlation_id", "c1"), ("decision", "deny"),
         ("reason", "bad idea"), ("tool", "tool-one")], 10)] :=
  C8_text_reply_deny_reason handlerFix envFix regPrompt ⟨1, "  bad idea  ", false⟩ apprC1 7
    rfl (by decide) (by decide) rfl (by decide) rfl

/-! ## C3 — the armed timeout -/

/-- The HTTP handler's configured service/renderer fixture. -/
def svcFix : ServiceCfg := ⟨1, fun _ => "rendered"⟩

/-- A config with a 7200-second approval timeout. -/
def cfg7200 : Config := ⟨"en", 7200, ""⟩

/-- A valid submission with an explicit 60-second override. -/
def apr60 : ApproveRequest :=
  ⟨"req-60", "tool-sixty", none, "", "", [], "", "", some cbFix, 60⟩

theorem validate_ok_timeout (cfg : Config) (req : ApproveRequest) (goReq : Request)
    (t : Int) (hv : validate cfg req = Except.ok (goReq, t)) :
    t = if req.timeoutSec > 0 then req.timeoutSec else cfg.approvalTimeoutSec := by
  simp only [validate] at hv
  repeat' split at hv
  all_goals first
    | exact (congrArg Prod.snd (Except.ok.inj hv)).symm
    | cases hv
  all_goals simp [*]

/-- C3 (counterexample): with a configured timeout of 7200 s and an
explicit override of 60 s, the timer is armed for 60 s, not for
`max(7200, 60) = 7200`, so the claimed `max` rule is false. -/
theorem C3_counterexample :
    (serveApprove svcFix cfg7200 envFix newRegistry apr60 0).2.2 =
      [Effect.sendMessage 1 "rendered" "MarkdownV2",
       Effect.timerArmed "req-60" 60 ""] ∧
    max (7200 : Int) 60 = 7200 ∧ (60 : Int) ≠ 7200 := by
  refine ⟨by decide, by decide, by decide⟩

/-- C3 (amended): the timer is armed for the per-request override
when that is positive, otherwise for the configured timeout; if the
resulting value is non-positive, `SubmitApproval` falls back to one hour
(3600 s).  (The spec's `max(configured, override)` does not hold.) -/
theorem C3_timeout_arming_amended :
    ∀ (svc : ServiceCfg) (cfg : Config) (env : Env) (r : Registry)
      (req : ApproveRequest) (goReq : Request) (t : Int) (now : Nat) (messageID : Int),
      validate cfg req = .ok (goReq, t) →
      env.sendResult = some messageID →
      lookupA r.approvals goReq.correlationID = none →
      Effect.timerArmed goReq.correlationID (if t ≤ 0 then 3600 else t) cfg.timeoutMessage
          ∈ (serveApprove svc cfg env r req now).2.2 ∧
      t = (if req.timeoutSec > 0 then req.timeoutSec else cfg.approvalTimeoutSec) := by
  intro svc cfg env r req goReq t now messageID hv hsend habs
  refine ⟨?_, validate_ok_timeout cfg req goReq t hv⟩
  unfold serveApprove
  rw [hv]
  simp [submitApproval, add_of_absent r goReq now habs, hsend]

/-- Witness for the amended C3: the concrete 60-second override arms a
60-second timer. -/
theorem C3_timeout_arming_amended_witness :
    Effect.timerArmed "req-60" 60 ""
      ∈ (serveApprove svcFix cfg7200 envFix newRegistry apr60 0).2.2 :=
  (C3_timeout_arming_amended svcFix cfg7200 envFix newRegistry apr60
    ⟨"req-60", "tool-sixty", [], "", "", [], "en", "markdown", cbFix⟩ 60 0 5
    rfl rfl (by decide)).1

/-! ## C9 — submission-boundary validation -/

/-- The config fixture of the HTTP boundary. -/
def cfgFix : Config := ⟨"en", 3600, ""⟩

/-- A valid submission that omits both optional text fields. -/
def aprNoText : ApproveRequest :=
  ⟨"req-anon", "tool-anon", none, "", "", [], "", "", some cbFix, 0⟩

/-- C9 (counterexample): a request whose `justification` and
`approval_request` are both empty — 0 characters, outside the 10–500
bound the claim says is enforced on required text fields — is accepted,
not rejected: the bound is only checked for *supplied* (non-empty)
values, and no other required field has a length bound at all. -/
theorem C9_counterexample :
    (trimGo aprNoText.justification).length < 10 ∧
    (trimGo aprNoText.approvalRequest).length < 10 ∧
    validate cfgFix aprNoText =
      .ok (⟨"req-anon", "tool-anon", [], "", "", [], "en", "markdown", cbFix⟩,
        cfgFix.approvalTimeoutSec) := by
  refine ⟨by decide, by decide, ?_⟩
  rfl

/-- C9 (amended): the submission boundary rejects — without touching
the registry — when a *supplied* (non-empty) `justification` or
`approval_request` trims to fewer than 10 or more than 500 characters,
when any of the (at most 5 kept) references has a blank label or URL,
when a supplied markup is neither `markdown` nor `html` (case- and
space-insensitively), or when the callback URL is missing or blank; more
than 5 references are silently truncated to the first 5 rather than
rejected; every rejection answers 400/`error` and leaves the registry
unchanged with no effects. -/
theorem C9_submission_validation_amended :
    (∀ (cfg : Config) (req : ApproveRequest),
      req.justification ≠ "" →
      ((trimGo req.justification).length < 10 ∨ (trimGo req.justification).length > 500) →
      rejects cfg req = true) ∧
    (∀ (cfg : Config) (req : ApproveRequest),
      req.approvalRequest ≠ "" →
      ((trimGo req.approvalRequest).length < 10 ∨ (trimGo req.approvalRequest).length > 500) →
      rejects cfg req = true) ∧
    (∀ (cfg : Config) (req : ApproveRequest),
      validate cfg req = validate cfg { req with linksToCode := req.linksToCode.take 5 }) ∧
    (∀ (cfg : Config) (req : ApproveRequest) (l : Link),
      l ∈ req.linksToCode.take 5 → (trimGo l.text = "" ∨ trimGo l.url = "") →
      rejects cfg req = true) ∧
    (∀ (cfg : Config) (req : ApproveRequest),
      trimGo req.markup ≠ "" →
      toLowerGo (trimGo req.markup) ≠ "markdown" → toLowerGo (trimGo req.markup) ≠ "html" →
      rejects cfg req = true) ∧
    (∀ (cfg : Config) (req : ApproveRequest),
      (req.callback = none ∨ ∃ cb, req.callback = some cb ∧ trimGo cb.url = "") →
      rejects cfg req = true) ∧
    (∀ (svc : ServiceCfg) (cfg : Config) (env : Env) (r : Registry)
      (req : ApproveRequest) (now : Nat) (e : String),
      validate cfg req = .error e →
      serveApprove svc cfg env r req now = (⟨400, "error", e, ""⟩, r, [])) := by
  refine ⟨?_, ?_, ?_, ?_, ?_, ?_, ?_⟩
  · intro cfg req hj hlen
    by_cases h1 : trimGo req.correlationID = ""
    · simp [rejects, validate, h1]
    by_cases h2 : trimGo req.tool = ""
    · simp [rejects, validate, h1, h2]
    simp [rejects, validate, h1, h2, hj, validateReasonLength, hlen]
  · intro cfg req ha hlen
    by_cases h1 : trimGo req.correlationID = ""
    · simp [rejects, validate, h1]
    by_cases h2 : trimGo req.tool = ""
    · simp [rejects, validate, h1, h2]
    by_cases hj : req.justification = ""
    · simp [rejects, validate, h1, h2, hj, validateReasonLength, ha, hlen]
    · by_cases hjl : (trimGo req.justification).length < 10 ∨
          (trimGo req.justification).length > 500
      · simp [rejects, validate, h1, h2, hj, validateReasonLength, hjl]
      · simp [rejects, validate, h1, h2, hj, validateReasonLength, hjl, ha, hlen]
  · intro cfg req
    have hl1 : (if req.linksToCode.length > 5 then req.linksToCode.take 5
        else req.linksToCode) = req.linksToCode.take 5 := by
      split
      · rfl
      · next h => rw [List.take_of_length_le (by omega)]
    have hl2 : (if (req.linksToCode.take 5).length > 5 then (req.linksToCode.take 5).take 5
        else req.linksToCode.take 5) = req.linksToCode.take 5 := by
      rw [if_neg]
      simp [List.length_take]
    unfold validate
    rw [hl1]
    rw [show ({ req with linksToCode := req.linksToCode.take 5 } : ApproveRequest).linksToCode
      = req.linksToCode.take 5 from rfl]
    rw [hl2]
  · intro cfg req l hm hbad
    by_cases h1 : trimGo req.correlationID = ""
    · simp [rejects, validate, h1]
    by_cases h2 : trimGo req.tool = ""
    · simp [rejects, validate, h1, h2]
    cases h3 : (if req.justification ≠ "" then
        validateReasonLength "justification" req.justification else none) with
    | some e => simp [rejects, validate, h1, h2, h3]
    | none =>
    cases h4 : (if req.approvalRequest ≠ "" then
        validateReasonLength "approval_request" req.approvalRequest else none) with
    | some e => simp [rejects, validate, h1, h2, h3, h4]
    | none =>
    have hl1 : (if req.linksToCode.length > 5 then req.linksToCode.take 5
        else req.linksToCode) = req.linksToCode.take 5 := by
      split
      · rfl
      · next h => rw [List.take_of_length_le (by omega)]
    have hany : (req.linksToCode.take 5).any
        (fun l => trimGo l.text == "" || trimGo l.url == "") = true := by
      apply List.any_eq_true.mpr
      refine ⟨l, hm, ?_⟩
      rcases hbad with hb | hb <;> simp [hb]
    simp [rejects, validate, h1, h2, h3, h4, hl1, hany]
  · intro cfg req hm0 hmd hht
    by_cases h1 : trimGo req.correlationID = ""
    · simp [rejects, validate, h1]
    by_cases h2 : trimGo req.tool = ""
    · simp [rejects, validate, h1, h2]
    cases h3 : (if req.justification ≠ "" then
        validateReasonLength "justification" req.justification else none) with
    | some e => simp [rejects, validate, h1, h2, h3]
    | none =>
    cases h4 : (if req.approvalRequest ≠ "" then
        validateReasonLength "approval_request" req.approvalRequest else none) with
    | some e => simp [rejects, validate, h1, h2, h3, h4]
    | none =>
    cases h5 : (if req.linksToCode.length > 5 then req.linksToCode.take 5
        else req.linksToCode).any (fun l => trimGo l.text == "" || trimGo l.url == "") with
    | true => simp [rejects, validate, h1, h2, h3, h4, h5]
    | false => simp [rejects, validate, h1, h2, h3, h4, h5, hm0, hmd, hht]
  · intro cfg req hcb
    by_cases h1 : trimGo req.correlationID = ""
    · simp [rejects, validate, h1]
    by_cases h2 : trimGo req.tool = ""
    · simp [rejects, validate, h1, h2]
    cases h3 : (if req.justification ≠ "" then
        validateReasonLength "justification" req.justification else none) with
    | some e => simp [rejects, validate, h1, h2, h3]
    | none =>
    cases h4 : (if req.approvalRequest ≠ "" then
        validateReasonLength "approval_request" req.approvalRequest else none) with
    | some e => simp [rejects, validate, h1, h2, h3, h4]
    | none =>
    cases h5 : (if req.linksToCode.length > 5 then req.linksToCode.take 5
        else req.linksToCode).any (fun l => trimGo l.text == "" || trimGo l.url == "") with
    | true => simp [rejects, validate, h1, h2, h3, h4, h5]
    | false =>
    by_cases h6 : toLowerGo (trimGo (if trimGo req.markup = "" then "markdown" else req.markup)) ≠ "markdown" ∧ toLowerGo (trimGo (if trimGo req.markup = "" then "markdown" else req.markup)) ≠ "html"
    · simp [rejects, validate, h1, h2, h3, h4, h5, h6]
    · rcases hcb with hnone | ⟨cb, hcb2, hurl⟩
      · simp [rejects, validate, h1, h2, h3, h4, h5, h6, hnone]
      · simp [rejects, validate, h1, h2, h3, h4, h5, h6, hcb2, hurl]
  · intro svc cfg env r req now e hv
    unfold serveApprove
    rw [hv]
    rfl

/-- Witness for the amended C9: a request with a blank reference URL is
rejected and the registry is left untouched. -/
theorem C9_submission_validation_amended_witness :
    rejects cfgFix { aprNoText with linksToCode := [⟨"label", " "⟩] } = true :=
  C9_submission_validation_amended.2.2.2.1 cfgFix
    { aprNoText with linksToCode := [⟨"label", " "⟩] } ⟨"label", " "⟩
    (by decide) (by right; decide)

/-! ## C10 — send failure leaves an orphaned entry -/

/-- C10: when the chat send fails after admission, `SubmitApproval`
returns decision `error` synchronously, the entry stays in the registry
(retrievable via `Get`), the effect trace is exactly the failed send plus
its log — no timer is armed, nothing resolves the entry — and a later
`Add` with the same correlation id fails with `AlreadyExists`. -/
theorem C10_send_failure_orphan :
    ∀ (svc : ServiceCfg) (env : Env) (r : Registry) (req : Request) (t : Int)
      (tm : String) (now now2 : Nat) (req2 : Request),
      env.sendResult = none →
      lookupA r.approvals req.correlationID = none →
      req2.correlationID = req.correlationID →
      (submitApproval svc env r req t tm now).1 =
        ⟨.error, "failed to send telegram message"⟩ ∧
      (submitApproval svc env r req t tm now).2.1.get req.correlationID =
        some ⟨req, now, 0, "", false⟩ ∧
      (submitApproval svc env r req t tm now).2.2 =
        [Effect.sendMessage svc.chatID (svc.render req) (parseModeService req.markup),
         Effect.logError "Failed to send telegram message"] ∧
      ((submitApproval svc env r req t tm now).2.1).add req2 now2 =
        (none, (submitApproval svc env r req t tm now).2.1) := by
  intro svc env r req t tm now now2 req2 hsend habs hreq2
  have hsub : submitApproval svc env r req t tm now =
      (⟨.error, "failed to send telegram message"⟩,
        { r with approvals := (req.correlationID, ⟨req, now, 0, "", false⟩) :: r.approvals },
        [Effect.sendMessage svc.chatID (svc.render req) (parseModeService req.markup),
         Effect.logError "Failed to send telegram message"]) := by
    unfold submitApproval
    rw [add_of_absent r req now habs]
    simp [hsend]
  refine ⟨by rw [hsub], ?_, by rw [hsub], ?_⟩
  · rw [hsub]
    exact lookupA_cons_self _ _ _
  · rw [hsub]
    apply add_of_present
    rw [hreq2]
    exact lookupA_cons_self _ _ _

/-- Witness for C10: the concrete failed send of `reqC2` into an empty
registry leaves the entry in flight and a duplicate `Add` failing. -/
theorem C10_send_failure_orphan_witness :
    (submitApproval svcFix ⟨none, true, true, true, none⟩ newRegistry reqC2 60 "" 9).1 =
      ⟨.error, "failed to send telegram message"⟩ :=
  (C10_send_failure_orphan svcFix ⟨none, true, true, true, none⟩ newRegistry reqC2 60 "" 9 10
    reqC2 rfl rfl rfl).1

end TgApprover
